import Mathlib

/-!
Shallow embedding of the anycall RPC library (`src/anycall/rpc.py` and
`src/anycall/connectionpool.py`).

Modelling conventions:
* Python strings are Lean `String` / `List Char`.
* Python dicts are association lists with Python dict semantics
  (update-in-place on an existing key, append for a new key).
* uuid values are natural numbers below `2 ^ 128`; `uuid.uuid1()` calls are
  modelled by a counter supply, with freshness stated as a hypothesis where a
  theorem needs it.
* Twisted deferreds are numbered handles; firing a deferred is recorded as an
  event rather than mutating shared state.
-/

deriving instance DecidableEq for Except

set_option maxRecDepth 4000

namespace Anycall

/-! ### Hexadecimal characters

Model of the digit set Python `int(x, 16)` accepts, and of the lowercase hex
rendering used by `uuid.UUID.hex`. -/

def lowerHexChars : List Char := "0123456789abcdef".data

/-- The characters Python `int(x, 16)` accepts as digits, with their values. -/
def hexPairs : List (Char × Nat) :=
  [('0', 0), ('1', 1), ('2', 2), ('3', 3), ('4', 4), ('5', 5), ('6', 6), ('7', 7),
   ('8', 8), ('9', 9), ('a', 10), ('b', 11), ('c', 12), ('d', 13), ('e', 14), ('f', 15),
   ('A', 10), ('B', 11), ('C', 12), ('D', 13), ('E', 14), ('F', 15)]

def hexDigitVal (c : Char) : Option Nat :=
  (hexPairs.find? (fun p => decide (p.1 = c))).map (fun p => p.2)

def isHexDigitChar (c : Char) : Bool := (hexDigitVal c).isSome

/-- The `d`-th lowercase hex digit (`uuid.UUID.hex` renders in lowercase). -/
def hexDigitToChar (d : Nat) : Char := lowerHexChars.getD d '0'

/-- `toHexAux w n acc` prepends the `w` least-significant hex digits of `n`,
most significant first, to `acc`.  `toHexAux 32 n []` models `uuid.UUID.hex`:
the 32-character lowercase hex rendering of a 128-bit uuid value. -/
def toHexAux : Nat → Nat → List Char → List Char
  | 0, _, acc => acc
  | w + 1, n, acc => toHexAux w (n / 16) (hexDigitToChar (n % 16) :: acc)

def parseHexGo : Nat → List Char → Option Nat
  | acc, [] => some acc
  | acc, c :: rest =>
    match hexDigitVal c with
    | some d => parseHexGo (16 * acc + d) rest
    | none => none

/-- The digit run of Python `long(s, 16)`: at least one digit, all hex. -/
def parseHexList (cs : List Char) : Option Nat :=
  if cs.isEmpty then none else parseHexGo 0 cs

/-- Python `long(s, 16)` allows an optional `0x`/`0X` marker before the
digits. -/
def pyHexBody (cs : List Char) : Option Nat :=
  match cs with
  | '0' :: c :: rest =>
    if c = 'x' ∨ c = 'X' then parseHexList rest else parseHexList ('0' :: c :: rest)
  | _ => parseHexList cs

/-- The whitespace characters Python `str.strip()` and `long(s, 16)` ignore. -/
def isPyWs (c : Char) : Bool :=
  c = ' ' ∨ c = '\t' ∨ c = '\n' ∨ c = '\r' ∨ c = '\x0b' ∨ c = '\x0c'

def stripEnds (p : Char → Bool) (cs : List Char) : List Char :=
  ((cs.dropWhile p).reverse.dropWhile p).reverse

/-- Model of Python `long(s, 16)`: strip surrounding whitespace, allow an
optional sign, an optional `0x` marker, then hex digits. -/
def pyLong16 (cs : List Char) : Option Int :=
  match stripEnds isPyWs cs with
  | '+' :: rest => (pyHexBody rest).map Int.ofNat
  | '-' :: rest => (pyHexBody rest).map (fun n => - Int.ofNat n)
  | t => (pyHexBody t).map Int.ofNat

def leadsWith : List Char → List Char → Bool
  | [], _ => true
  | _ :: _, [] => false
  | p :: ps, c :: cs => p = c && leadsWith ps cs

/-- Recursion worker for `removeSub`, structural on a fuel argument so that
it reduces in the kernel; `removeSub` supplies enough fuel that the `0` case
is never reached. -/
def removeSubGo (p : Char) (ps : List Char) : Nat → List Char → List Char
  | _, [] => []
  | 0, cs => cs
  | fuel + 1, c :: rest =>
    if p = c ∧ leadsWith ps rest then removeSubGo p ps fuel (rest.drop ps.length)
    else c :: removeSubGo p ps fuel rest

/-- Python `str.replace(pat, "")` for a non-empty pattern `p :: ps`: remove
every non-overlapping occurrence, scanning left to right. -/
def removeSub (p : Char) (ps : List Char) (cs : List Char) : List Char :=
  removeSubGo p ps cs.length cs

def lbrace : Char := Char.ofNat 123
def rbrace : Char := Char.ofNat 125

def braceChar (c : Char) : Bool := c = lbrace ∨ c = rbrace

/-- The cleaning steps of `uuid.UUID.__init__(hex=s)`:
`hex.replace("urn:", "").replace("uuid:", "").strip(braces).replace("-", "")`. -/
def uuidHexClean (cs : List Char) : List Char :=
  (stripEnds braceChar (removeSub 'u' ['u', 'i', 'd', ':'] (removeSub 'u' ['r', 'n', ':'] cs))).filter
    (fun c => ¬ c = '-')

/-- Model of `uuid.UUID(s)` (hex form) on a character list: clean the string,
require exactly 32 characters, convert with `long(s, 16)`, require
`0 <= int < 2 ** 128`.  Returns the uuid value. -/
def uuidFromList (cs : List Char) : Option Nat :=
  if (uuidHexClean cs).length = 32 then
    match pyLong16 (uuidHexClean cs) with
    | some i => if 0 ≤ i ∧ i < 2 ^ 128 then some i.toNat else none
    | none => none
  else none

/-- Model of `uuid.UUID(s)` (hex form). -/
def uuidFromString (s : String) : Option Nat :=
  uuidFromList s.data

/-! ### URL parsing

Model of Python 2 `urlparse.urlsplit` restricted to the fields `rpc.py`
reads: `scheme`, `netloc` and `path` (the scheme `anycall` is not in
`uses_params`, so no params splitting happens). -/

structure UrlParts where
  scheme : String
  netloc : String
  path : String
deriving DecidableEq

/-- `(before, rest)` where `rest` starts with the first character of `cs`
that is in `delims` (`rest = []` when none is). -/
def takeUntilDelims (delims : List Char) : List Char → List Char × List Char
  | [] => ([], [])
  | c :: rest =>
    if c ∈ delims then ([], c :: rest)
    else ((takeUntilDelims delims rest).1.cons c, (takeUntilDelims delims rest).2)

def schemeChar (c : Char) : Bool :=
  c.isAlpha ∨ c.isDigit ∨ c = '+' ∨ c = '-' ∨ c = '.'

/-- The scheme-splitting step of `urlsplit`: a scheme is recognised when a
colon appears after at least one character (`takeUntilDelims [':']` leaves a
non-empty remainder headed by the colon), everything before it is a scheme
character, and what follows is not a bare digit run (the port-number check
of the Python 2 source).  The scheme is lowercased. -/
def splitScheme (cs : List Char) : List Char × List Char :=
  if (takeUntilDelims [':'] cs).2 = [] then ([], cs)
  else if ¬ (takeUntilDelims [':'] cs).1 = [] ∧ (takeUntilDelims [':'] cs).1.all schemeChar ∧
      ((takeUntilDelims [':'] cs).2.tail = [] ∨
        ¬ ((takeUntilDelims [':'] cs).2.tail.all Char.isDigit))
  then ((takeUntilDelims [':'] cs).1.map Char.toLower, (takeUntilDelims [':'] cs).2.tail)
  else ([], cs)

/-- The netloc-splitting step: when the remainder starts with `//`
(Python checks `url[:2] == "//"`), the netloc runs to the first `/`, `?`
or `#`. -/
def splitNetloc (cs : List Char) : List Char × List Char :=
  if cs.take 2 = ['/', '/'] then takeUntilDelims ['/', '?', '#'] (cs.drop 2)
  else ([], cs)

/-- `urlsplit`: scheme split, then netloc split, then the path is what is
left before the first `#` (fragment) and `?` (query). -/
def pyUrlsplit (cs : List Char) : UrlParts :=
  ⟨String.mk (splitScheme cs).1,
   String.mk (splitNetloc (splitScheme cs).2).1,
   String.mk (takeUntilDelims ['?'] (takeUntilDelims ['#'] (splitNetloc (splitScheme cs).2).2).1).1⟩

/-- Python `str.split(sep)` with a single-character separator and no limit:
always returns at least one (possibly empty) piece. -/
def pySplit (sep : Char) : List Char → List (List Char)
  | [] => [[]]
  | c :: rest =>
    if c = sep then [] :: pySplit sep rest
    else
      match pySplit sep rest with
      | [] => [[c]]
      | h :: t => (c :: h) :: t

/-! ### `_RPCFunctionStub` and `create_function_stub` -/

/-- `_RPCFunctionStub`: the stub stores the peer id and function id parsed
from the URL (its third attribute, the back-reference to the `RPCSystem`, is
kept at the call sites of the model). -/
structure RPCFunctionStub where
  peerid : String
  functionid : Nat
deriving DecidableEq

/-- The IPv6 bracket validation of `urlsplit`: after the netloc split,
Python raises `ValueError("Invalid IPv6 URL")` when the netloc has a `[`
without `]` or a `]` without `[`. -/
def netlocBadBrackets (cs : List Char) : Bool :=
  ('[' ∈ cs ∧ ¬ ']' ∈ cs) ∨ (']' ∈ cs ∧ ¬ '[' ∈ cs)

/-- The path components `rpc.py` inspects: `parseresult.path.split("/")`. -/
def urlPathParts (url : String) : List (List Char) :=
  pySplit '/' (pyUrlsplit url.data).path.data

/-- `RPCSystem.create_function_stub`: parse the url, check the scheme, the
path shape (`split("/")` must give `["", "functions", <id>]`), and convert
the id with `uuid.UUID`. -/
def create_function_stub (url : String) : Except String RPCFunctionStub :=
  if netlocBadBrackets (pyUrlsplit url.data).netloc.data then
    Except.error "Invalid IPv6 URL"
  else if ¬ (pyUrlsplit url.data).scheme = "anycall" then
    Except.error "Not an anycall URL"
  else if ¬ (urlPathParts url).length = 3 ∨ ¬ (urlPathParts url).getD 0 [] = []
      ∨ ¬ (urlPathParts url).getD 1 [] = "functions".data then
    Except.error "Not an URL for a remote function"
  else
    match uuidFromList ((urlPathParts url).getD 2 []) with
    | none => Except.error "Not a valid URL for a remote function"
    | some functionid => Except.ok ⟨(pyUrlsplit url.data).netloc, functionid⟩

def isError {ε σ : Type} : Except ε σ → Bool
  | Except.error _ => true
  | Except.ok _ => false

/-- The URL `get_function_url` builds:
`"anycall://%s/functions/%s" % (ownid, functionid.hex)`. -/
def functionUrl (ownid : String) (fid : Nat) : String :=
  "anycall://" ++ ownid ++ "/functions/" ++ String.mk (toHexAux 32 fid [])

/-! ### Python dicts as association lists -/

def dictLookup {K V : Type} [DecidableEq K] : List (K × V) → K → Option V
  | [], _ => none
  | e :: rest, k => if e.1 = k then some e.2 else dictLookup rest k

/-- `d[k] = v`: replace the value of an existing key, append a new key. -/
def dictInsert {K V : Type} [DecidableEq K] : List (K × V) → K → V → List (K × V)
  | [], k, v => [(k, v)]
  | e :: rest, k, v => if e.1 = k then (k, v) :: rest else e :: dictInsert rest k v

/-- `del d[k]` / `d.pop(k)`: drop the entry of the key (first occurrence). -/
def dictRemove {K V : Type} [DecidableEq K] : List (K × V) → K → List (K × V)
  | [], _ => []
  | e :: rest, k => if e.1 = k then rest else e :: dictRemove rest k

def dictContains {K V : Type} [DecidableEq K] (d : List (K × V)) (k : K) : Bool :=
  (dictLookup d k).isSome

/-! ### The RPC message objects of `rpc.py`

`_Call`, `_CallReturn`, `_CallFail`, `_CallCancel`, carried as the payload of
packets of type `"RPC"`.  `pickle.dumps`/`pickle.loads` round-trips them, so
the model carries the decoded object directly; call ids are uuid values
(`Nat`), argument and return values come from a parameter type `β`. -/

/-- Python failure objects as the model needs them: a cancellation
(`defer.CancelledError`), the `TimeoutError` raised by `timeout_deferred`, a
failure shipped in a `_CallFail`, or a `ValueError`-style failure with a
message. -/
inductive PyFailure (β : Type) where
  | cancelledError : PyFailure β
  | timeoutError (msg : String) : PyFailure β
  | remote (v : β) : PyFailure β
  | valueError (msg : String) : PyFailure β
deriving DecidableEq

inductive RpcMsg (β : Type) where
  | call (callid : Nat) (functionid : Nat) (args : List β) (kwargs : List (String × β))
  | callReturn (callid : Nat) (retval : β)
  | callFail (callid : Nat) (failure : PyFailure β)
  | callCancel (callid : Nat)
deriving DecidableEq

/-- Observable effects of the handlers: messages handed to
`connectionpool.send`, the invocation performed by `defer.maybeDeferred`,
call-table updates, deferred resolutions, and `log.err` lines. -/
inductive SysEvent (α β : Type) where
  | sentMsg (peer : String) (msg : RpcMsg β)
  | invoked (f : α) (args : List β) (kwargs : List (String × β))
  | insertedLocal (key : String × Nat) (h : Nat)
  | removedLocal (key : String × Nat)
  | insertedRemote (key : String × Nat) (h : Nat)
  | removedRemote (key : String × Nat)
  | callback (h : Nat) (v : β)
  | errback (h : Nat) (f : PyFailure β)
  | cancelledHandle (h : Nat)
  | loggedError (msg : String)
  | pingLoopStopped
  | iterationCancelled
  | poolClosed
deriving DecidableEq

/-- The mutable state of an `RPCSystem`: the function bidict, the two
in-flight call tables (key `(peerid, callid)`, value the deferred handle),
the uuid/handle supplies, and the ping-loop bookkeeping
(`_ping_loop.running` and `_ping_current_iteration`). -/
structure RPCSystem (α β : Type) where
  ownid : String
  functions : List (Nat × α)
  localToRemote : List ((String × Nat) × Nat)
  remoteToLocal : List ((String × Nat) × Nat)
  nextId : Nat
  nextHandle : Nat
  pingLoopRunning : Bool
  pingCurrentIteration : Option Nat
deriving DecidableEq

/-- `self._functions[functionid]`: bidict lookup by key. -/
def lookupById {α : Type} (functions : List (Nat × α)) (fid : Nat) : Option α :=
  dictLookup functions fid

/-- `self._functions[:function]` (and `function in ~self._functions`):
bidict lookup by value. -/
def lookupByFn {α : Type} [DecidableEq α] (functions : List (Nat × α)) (f : α) : Option Nat :=
  match functions with
  | [] => none
  | e :: rest => if e.2 = f then some e.1 else lookupByFn rest f

/-! ### `RPCSystem.get_function_url` -/

/-- `get_function_url`: return the url of an already-registered callable, or
register it under a fresh uuid (`uuid.uuid1()`, modelled by the `nextId`
supply) and return the new url. -/
def get_function_url {α β : Type} [DecidableEq α] (s : RPCSystem α β) (f : α) :
    String × RPCSystem α β :=
  match lookupByFn s.functions f with
  | some functionid => (functionUrl s.ownid functionid, s)
  | none =>
    (functionUrl s.ownid s.nextId,
     { s with functions := dictInsert s.functions s.nextId f, nextId := s.nextId + 1 })

/-! ### Call handling (`_invoke_function`, receive handlers, `close`)

Each handler returns the new state, the list of events it produced, and —
where the source can `raise` out of the handler — the message of the raised
`ValueError` (`_packet_received` catches and logs it). -/

/-- Outcome of running a local callable under `defer.maybeDeferred`: an
immediate return value, an immediately raised failure, or a deferred that is
still pending (its handle chosen by the caller of the model). -/
inductive FnOutcome (β : Type) where
  | ret (h : Nat) (v : β)
  | raised (h : Nat) (f : PyFailure β)
  | pending (h : Nat)
deriving DecidableEq

/-- Result `_invoke_function` hands back: the call deferred on send success,
or the send failure passed through by `send_failed`. -/
inductive InvokeOutcome (β : Type) where
  | handle (h : Nat)
  | sendFailed (f : PyFailure β)
deriving DecidableEq

/-- `RPCSystem._invoke_function`: allocate a call id and a cancellable
deferred, insert the `(peer, callid) -> deferred` entry into
`_local_to_remote` BEFORE handing the `_Call` to `connectionpool.send`
(see the source comment), then let the send outcome decide: on success the
deferred is the result; on failure the entry is deleted and the failure is
surfaced.  `sendResult` is the outcome of the asynchronous send
(`none` = success). -/
def invoke_function {α β : Type} (s : RPCSystem α β) (peerid : String) (functionid : Nat)
    (args : List β) (kwargs : List (String × β)) (sendResult : Option (PyFailure β)) :
    RPCSystem α β × List (SysEvent α β) × InvokeOutcome β :=
  let callid := s.nextId
  let h := s.nextHandle
  let s1 : RPCSystem α β :=
    { s with nextId := s.nextId + 1, nextHandle := s.nextHandle + 1,
             localToRemote := dictInsert s.localToRemote (peerid, callid) h }
  match sendResult with
  | none =>
    (s1,
     [SysEvent.insertedLocal (peerid, callid) h,
      SysEvent.sentMsg peerid (RpcMsg.call callid functionid args kwargs)],
     InvokeOutcome.handle h)
  | some f =>
    ({ s1 with localToRemote := dictRemove s1.localToRemote (peerid, callid) },
     [SysEvent.insertedLocal (peerid, callid) h,
      SysEvent.sentMsg peerid (RpcMsg.call callid functionid args kwargs),
      SysEvent.removedLocal (peerid, callid)],
     InvokeOutcome.sendFailed f)

/-- `Deferred.cancel()` on the deferred `_invoke_function` created for
`(peerid, callid)` with handle `h`: Twisted first runs the canceller —
which sends a best-effort `_CallCancel` if the entry is still in
`_local_to_remote`, and does not touch the table — and then, since the
canceller did not fire the deferred, errbacks it with `CancelledError`. -/
def cancel_call {α β : Type} (s : RPCSystem α β) (peerid : String) (callid : Nat) (h : Nat) :
    RPCSystem α β × List (SysEvent α β) :=
  ((s : RPCSystem α β),
   (if dictContains s.localToRemote (peerid, callid)
    then [SysEvent.sentMsg peerid (RpcMsg.callCancel callid)]
    else []) ++ [SysEvent.errback h (PyFailure.cancelledError)])

/-- `RPCSystem._Call_received`.  `runFn f args kwargs` is the behaviour of
the local callable under `defer.maybeDeferred` (it runs at once).  The
handler raises on an unregistered function id; otherwise it invokes the
callable, stores the deferred in `_remote_to_local`, and attaches
`on_success`/`on_fail`, which — for an already-fired deferred — run
immediately: they delete the entry if still present and send the
`_CallReturn`/`_CallFail`. -/
def Call_received {α β : Type} [DecidableEq α]
    (runFn : α → List β → List (String × β) → FnOutcome β)
    (s : RPCSystem α β) (peerid : String) (callid functionid : Nat)
    (args : List β) (kwargs : List (String × β)) :
    RPCSystem α β × List (SysEvent α β) × Option String :=
  match lookupById s.functions functionid with
  | none => (s, [], some "Call for unregistered function.")
  | some f =>
    match runFn f args kwargs with
    | FnOutcome.pending h =>
      ({ s with remoteToLocal := dictInsert s.remoteToLocal (peerid, callid) h },
       [SysEvent.invoked f args kwargs, SysEvent.insertedRemote (peerid, callid) h],
       none)
    | FnOutcome.ret h v =>
      if dictContains (dictInsert s.remoteToLocal (peerid, callid) h) (peerid, callid)
      then
        ({ s with remoteToLocal :=
              dictRemove (dictInsert s.remoteToLocal (peerid, callid) h) (peerid, callid) },
         [SysEvent.invoked f args kwargs, SysEvent.insertedRemote (peerid, callid) h,
          SysEvent.removedRemote (peerid, callid),
          SysEvent.sentMsg peerid (RpcMsg.callReturn callid v)],
         none)
      else
        ({ s with remoteToLocal := dictInsert s.remoteToLocal (peerid, callid) h },
         [SysEvent.invoked f args kwargs, SysEvent.insertedRemote (peerid, callid) h],
         none)
    | FnOutcome.raised h fv =>
      if dictContains (dictInsert s.remoteToLocal (peerid, callid) h) (peerid, callid)
      then
        ({ s with remoteToLocal :=
              dictRemove (dictInsert s.remoteToLocal (peerid, callid) h) (peerid, callid) },
         [SysEvent.invoked f args kwargs, SysEvent.insertedRemote (peerid, callid) h,
          SysEvent.removedRemote (peerid, callid),
          SysEvent.sentMsg peerid (RpcMsg.callFail callid fv)],
         none)
      else
        ({ s with remoteToLocal := dictInsert s.remoteToLocal (peerid, callid) h },
         [SysEvent.invoked f args kwargs, SysEvent.insertedRemote (peerid, callid) h],
         none)

/-- `RPCSystem._CallReturn_received`: pop the entry (raising on a missing
key) and fire its deferred with the return value. -/
def CallReturn_received {α β : Type} (s : RPCSystem α β) (peerid : String) (callid : Nat)
    (retval : β) : RPCSystem α β × List (SysEvent α β) × Option String :=
  match dictLookup s.localToRemote (peerid, callid) with
  | none => (s, [], some "Received return value for non-existent call.")
  | some h =>
    ({ s with localToRemote := dictRemove s.localToRemote (peerid, callid) },
     [SysEvent.removedLocal (peerid, callid), SysEvent.callback h retval],
     none)

/-- `RPCSystem._CallFail_received`: pop the entry (raising on a missing key)
and errback its deferred with the shipped failure. -/
def CallFail_received {α β : Type} (s : RPCSystem α β) (peerid : String) (callid : Nat)
    (failure : PyFailure β) : RPCSystem α β × List (SysEvent α β) × Option String :=
  match dictLookup s.localToRemote (peerid, callid) with
  | none => (s, [], some "Received failure for non-existent call.")
  | some h =>
    ({ s with localToRemote := dictRemove s.localToRemote (peerid, callid) },
     [SysEvent.removedLocal (peerid, callid), SysEvent.errback h failure],
     none)

/-- `RPCSystem._CallCancel_received`: pop the entry and cancel its deferred;
a missing key means the result was already sent, and is ignored. -/
def CallCancel_received {α β : Type} (s : RPCSystem α β) (peerid : String) (callid : Nat) :
    RPCSystem α β × List (SysEvent α β) × Option String :=
  match dictLookup s.remoteToLocal (peerid, callid) with
  | none => (s, [], none)
  | some h =>
    ({ s with remoteToLocal := dictRemove s.remoteToLocal (peerid, callid) },
     [SysEvent.removedRemote (peerid, callid), SysEvent.cancelledHandle h],
     none)

/-- `RPCSystem._packet_received`: check the packet type, decode the payload
(pickle round-trips, so the model receives the message object), dispatch on
the message kind, and catch every raised error with `log.err()`. -/
def packet_received {α β : Type} [DecidableEq α]
    (runFn : α → List β → List (String × β) → FnOutcome β)
    (s : RPCSystem α β) (peerid : String) (typename : String) (msg : RpcMsg β) :
    RPCSystem α β × List (SysEvent α β) :=
  if ¬ typename = "RPC" then
    (s, [SysEvent.loggedError ("Received unexpected packet type:" ++ typename)])
  else
    match
      (match msg with
       | RpcMsg.call callid functionid args kwargs =>
         Call_received runFn s peerid callid functionid args kwargs
       | RpcMsg.callReturn callid retval => CallReturn_received s peerid callid retval
       | RpcMsg.callFail callid failure => CallFail_received s peerid callid failure
       | RpcMsg.callCancel callid => CallCancel_received s peerid callid) with
    | (s1, evs, none) => (s1, evs)
    | (s1, evs, some m) => (s1, evs ++ [SysEvent.loggedError m])

/-- `RPCSystem.close`: stop the ping loop, cancel the current ping iteration
if one is in flight, and close the connection pool.  (Cancelling an in-flight
iteration cancels its outstanding ping deferreds; the table effect of those
cancellations goes through the ping failure callback, modelled separately by
`ping_failed_callback`, and is not composed here.) -/
def close {α β : Type} (s : RPCSystem α β) : RPCSystem α β × List (SysEvent α β) :=
  ({ s with pingLoopRunning := false },
   [SysEvent.pingLoopStopped] ++
     (match s.pingCurrentIteration with
      | some _ => [SysEvent.iterationCancelled]
      | none => []) ++
     [SysEvent.poolClosed])

/-! ### The ping loop -/

/-- The keys `_ping_loop_iteration` walks: `list(self._local_to_remote)`. -/
def ping_snapshot {α β : Type} (s : RPCSystem α β) : List (String × Nat) :=
  s.localToRemote.map (fun e => e.1)

/-- The `failed` callback that `_ping_loop_iteration` attaches to every ping
it sends.  The callback body reads the loop variables `peerid, callid`;
Python closures capture variables, not values, so a callback that runs after
the `for` loop has completed sees the values of the final iteration —
whichever entry's ping failed.  Given the snapshot the loop iterated over,
the current `_local_to_remote` table, and the failure the ping produced, it
returns the table after the callback and the events it fired. -/
def ping_failed_callback {α β : Type} (snapshot : List (String × Nat))
    (localToRemote : List ((String × Nat) × Nat)) (failure : PyFailure β) :
    List ((String × Nat) × Nat) × List (SysEvent α β) :=
  match snapshot.getLast? with
  | none => (localToRemote, [])
  | some key =>
    match dictLookup localToRemote key with
    | some h =>
      (dictRemove localToRemote key,
       [SysEvent.removedLocal key, SysEvent.errback h failure])
    | none => (localToRemote, [])

/-- The decision function of `timeout_deferred.got_result`: before the
timeout, pass the result through (cancelling the delayed call); after the
timeout, replace a `CancelledError` with `TimeoutError(error_message)` and
pass anything else through. -/
def timeout_got_result {β : Type} (error_message : String) (timeout_occured : Bool)
    (result : PyFailure β) : PyFailure β :=
  if ¬ timeout_occured then result
  else
    match result with
    | PyFailure.cancelledError => PyFailure.timeoutError error_message
    | r => r

/-- `_RPCFunctionStub.__call__`: forward to
`self.rpcsystem._invoke_function(self.peerid, self.functionid, args, kwargs)`. -/
def stub_call {α β : Type} (stub : RPCFunctionStub) (sys : RPCSystem α β)
    (args : List β) (kwargs : List (String × β)) (sendResult : Option (PyFailure β)) :
    RPCSystem α β × List (SysEvent α β) × InvokeOutcome β :=
  invoke_function sys stub.peerid stub.functionid args kwargs sendResult

/-! ### `connectionpool.PoolProtocol` (handshake handling)

Model of `PoolProtocol.packet_received` and the pool registration calls it
makes.  The pool's `_connections` dict maps a peer id to the list of live
protocol instances (protocols are numbered); `_connection_made` appends. -/

/-- The per-session state `packet_received` reads and writes: `self.peer`
(`None` before an expected peer or a handshake is known),
`self.handshake_completed`, and whether `self.handshake_deferred` has
already been fired (callback or errback). -/
structure PoolProtocolState where
  peer : Option String
  handshake_completed : Bool
  hsFired : Bool
deriving DecidableEq

/-- Python truthiness of `self.peer`: `None` and the empty string are
falsy. -/
def optTruthy : Option String → Bool
  | none => false
  | some s => ¬ s = ""

inductive PoolEvent where
  | loggedErr (msg : String)
  | loseConnection
  | hsCallback
  | hsErrback
  | dispatched (peer : String) (payload : String)
  | uncaughtAlreadyCalled
deriving DecidableEq

/-- `ConnectionPool._connection_made`: append the protocol to the peer's
connection list (creating the list on first registration). -/
def connection_made (conns : List (String × List Nat)) (peer : String) (pid : Nat) :
    List (String × List Nat) :=
  match dictLookup conns peer with
  | some ps => dictInsert conns peer (ps ++ [pid])
  | none => dictInsert conns peer [pid]

def HANDSHAKE : String := "PoolProtocol_handshake"

/-- `PoolProtocol.packet_received` for protocol number `pid`.  The body runs
under `try/except ValueError`: a raised `ValueError` is logged, the stream
is closed and the handshake deferred errbacked.  Firing an already-fired
deferred raises `AlreadyCalledError`, which is NOT a `ValueError`: it
escapes the handler (recorded as `uncaughtAlreadyCalled`). -/
def pool_packet_received (pid : Nat) (st : PoolProtocolState)
    (conns : List (String × List Nat)) (typename payload : String) :
    PoolProtocolState × List (String × List Nat) × List PoolEvent :=
  if typename = HANDSHAKE then
    if optTruthy st.peer ∧ ¬ st.peer = some payload then
      -- peer mismatch: raise ValueError -> log, lose connection, errback
      if st.hsFired then
        (st, conns, [PoolEvent.loggedErr "peer mismatch", PoolEvent.loseConnection,
                     PoolEvent.uncaughtAlreadyCalled])
      else
        ({ st with hsFired := true }, conns,
         [PoolEvent.loggedErr "peer mismatch", PoolEvent.loseConnection, PoolEvent.hsErrback])
    else
      -- accept the handshake: set the peer, register with the pool, fire
      -- the handshake deferred
      if st.hsFired then
        ({ st with handshake_completed := true, peer := some payload },
         connection_made conns payload pid,
         [PoolEvent.uncaughtAlreadyCalled])
      else
        ({ st with handshake_completed := true, peer := some payload, hsFired := true },
         connection_made conns payload pid,
         [PoolEvent.hsCallback])
  else if ¬ st.handshake_completed then
    -- data before the handshake: raise ValueError -> log, lose connection, errback
    if st.hsFired then
      (st, conns, [PoolEvent.loggedErr "expected handshake", PoolEvent.loseConnection,
                   PoolEvent.uncaughtAlreadyCalled])
    else
      ({ st with hsFired := true }, conns,
       [PoolEvent.loggedErr "expected handshake", PoolEvent.loseConnection,
        PoolEvent.hsErrback])
  else
    (st, conns, [PoolEvent.dispatched (st.peer.getD "") payload])

/-! ### `_RPCFunctionStub` attribute model (for `__repr__`) -/

/-- The values of the attributes `_RPCFunctionStub.__init__` assigns:
`self.peerid`, `self.functionid`, `self.rpcsystem` — and nothing else. -/
inductive StubAttrValue where
  | strVal (s : String)
  | fidVal (n : Nat)
  | systemRef
deriving DecidableEq

/-- Python attribute lookup on a stub instance: exactly the three attributes
assigned in `__init__` resolve; any other name raises `AttributeError`
(modelled as `none`). -/
def stubGetattr (stub : RPCFunctionStub) (name : String) : Option StubAttrValue :=
  if name = "peerid" then some (StubAttrValue.strVal stub.peerid)
  else if name = "functionid" then some (StubAttrValue.fidVal stub.functionid)
  else if name = "rpcsystem" then some StubAttrValue.systemRef
  else none

def stubAttrRepr : StubAttrValue → String
  | StubAttrValue.strVal s => s
  | StubAttrValue.fidVal n => String.mk (toHexAux 32 n [])
  | StubAttrValue.systemRef => "RPCSystem"

/-- `_RPCFunctionStub.__repr__`: `"RPCStub(%s)" % repr(self.url)` — it reads
`self.url`, an attribute `__init__` never assigns, so the lookup decides the
outcome. -/
def stub_repr (stub : RPCFunctionStub) : Except String String :=
  match stubGetattr stub "url" with
  | none => Except.error "AttributeError"
  | some v => Except.ok ("RPCStub(" ++ stubAttrRepr v ++ ")")

/-- `_RPCFunctionStub.__str__`: `return repr(self)`. -/
def stub_str (stub : RPCFunctionStub) : Except String String :=
  stub_repr stub

/-- The spec's notion of a well-formed function-id component: exactly 32
hexadecimal characters (compared against the behaviour of `uuid.UUID`). -/
def spec_id_wellformed (cs : List Char) : Bool :=
  cs.length = 32 ∧ cs.all isHexDigitChar

/-- A small concrete system used by the witnesses. -/
def sampleSystem : RPCSystem Nat Nat :=
  ⟨"h:1", [], [], [], 7, 20, false, none⟩

/-- A concrete callable-behaviour oracle for the counterexamples. -/
def runFnConst : Nat → List Nat → List (String × Nat) → FnOutcome Nat :=
  fun _ _ _ => FnOutcome.pending 0

/-! ### Lemmas about hex digits and uuid parsing -/

theorem hexDigitVal_toChar : ∀ d : Nat, d < 16 → hexDigitVal (hexDigitToChar d) = some d := by
  decide

theorem toChar_mem_lower : ∀ d : Nat, d < 16 → hexDigitToChar d ∈ lowerHexChars := by decide

theorem lowerHex_spec : ∀ c ∈ lowerHexChars,
    isHexDigitChar c = true ∧ ¬ c = '/' ∧ ¬ c = '?' ∧ ¬ c = '#' ∧ ¬ c = ':' := by decide

theorem hexPairs_fst_spec : ∀ c ∈ hexPairs.map Prod.fst,
    ¬ c = '+' ∧ ¬ c = '-' ∧ ¬ c = 'x' ∧ ¬ c = 'X' ∧ isPyWs c = false ∧ ¬ c = 'u' ∧
    braceChar c = false := by decide

theorem isHex_mem (c : Char) (h : isHexDigitChar c = true) : c ∈ hexPairs.map Prod.fst := by
  unfold isHexDigitChar hexDigitVal at h
  cases hf : hexPairs.find? (fun p => decide (p.1 = c)) with
  | none => rw [hf] at h; simp at h
  | some pr =>
    have hmem := List.mem_of_find?_eq_some hf
    have hp := List.find?_some hf
    simp only [decide_eq_true_eq] at hp
    rw [← hp]
    exact List.mem_map_of_mem Prod.fst hmem

theorem hexDigitVal_lt (c : Char) (d : Nat) (h : hexDigitVal c = some d) : d < 16 := by
  unfold hexDigitVal at h
  cases hf : hexPairs.find? (fun p => decide (p.1 = c)) with
  | none => rw [hf] at h; simp at h
  | some pr =>
    rw [hf] at h
    simp only [Option.map_some', Option.some.injEq] at h
    have hmem := List.mem_of_find?_eq_some hf
    have hall : ∀ p ∈ hexPairs, p.2 < 16 := by decide
    have := hall pr hmem
    omega

theorem toHexAux_length : ∀ (w n : Nat) (acc : List Char),
    (toHexAux w n acc).length = w + acc.length := by
  intro w
  induction w with
  | zero =>
    intro n acc
    rw [show toHexAux 0 n acc = acc from rfl]
    omega
  | succ k ih =>
    intro n acc
    rw [toHexAux, ih]
    simp only [List.length_cons]
    omega

theorem toHexAux_mem : ∀ (w n : Nat) (acc : List Char) (c : Char),
    c ∈ toHexAux w n acc → c ∈ lowerHexChars ∨ c ∈ acc := by
  intro w
  induction w with
  | zero => intro n acc c h; right; simpa [toHexAux] using h
  | succ k ih =>
    intro n acc c h
    rw [toHexAux] at h
    rcases ih _ _ _ h with h1 | h2
    · left; exact h1
    · rcases List.mem_cons.mp h2 with rfl | h3
      · left; exact toChar_mem_lower _ (Nat.mod_lt _ (by omega))
      · right; exact h3

theorem parseHexGo_toHexAux : ∀ (w n : Nat) (tail : List Char) (a : Nat), n < 16 ^ w →
    parseHexGo a (toHexAux w n tail) = parseHexGo (a * 16 ^ w + n) tail := by
  intro w
  induction w with
  | zero =>
    intro n tail a h
    rw [pow_zero] at h
    have hn : n = 0 := by omega
    subst hn
    simp [toHexAux]
  | succ k ih =>
    intro n tail a h
    have h16 : (0 : Nat) < 16 := by norm_num
    have hpow : (16 : Nat) ^ (k + 1) = 16 ^ k * 16 := pow_succ 16 k
    have hdiv : n / 16 < 16 ^ k := by
      rw [Nat.div_lt_iff_lt_mul h16]
      omega
    rw [toHexAux, ih (n / 16) _ a hdiv]
    simp only [parseHexGo, hexDigitVal_toChar (n % 16) (Nat.mod_lt _ h16)]
    congr 1
    have hmod := Nat.div_add_mod n 16
    calc 16 * (a * 16 ^ k + n / 16) + n % 16
        = a * (16 ^ k * 16) + (16 * (n / 16) + n % 16) := by ring
      _ = a * 16 ^ (k + 1) + n := by rw [← hpow, hmod]

theorem parseHexList_toHex32 (n : Nat) (h : n < 16 ^ 32) :
    parseHexList (toHexAux 32 n []) = some n := by
  have hlen := toHexAux_length 32 n []
  unfold parseHexList
  have hne : (toHexAux 32 n []).isEmpty = false := by
    cases hcs : toHexAux 32 n [] with
    | nil => rw [hcs] at hlen; simp at hlen
    | cons c rest => rfl
  rw [hne]
  simp only [Bool.false_eq_true, if_false]
  rw [parseHexGo_toHexAux 32 n [] 0 h]
  simp [parseHexGo]

theorem parseHexGo_lt : ∀ (cs : List Char) (a v : Nat),
    parseHexGo a cs = some v → v < (a + 1) * 16 ^ cs.length := by
  intro cs
  induction cs with
  | nil =>
    intro a v h
    simp only [parseHexGo, Option.some.injEq] at h
    simp [← h]
  | cons c rest ih =>
    intro a v h
    rw [parseHexGo] at h
    cases hd : hexDigitVal c with
    | none => rw [hd] at h; simp at h
    | some d =>
      rw [hd] at h
      have hv := ih (16 * a + d) v h
      have hdlt := hexDigitVal_lt c d hd
      have hstep : (16 * a + d + 1) * 16 ^ rest.length ≤ (a + 1) * 16 ^ (c :: rest).length := by
        simp only [List.length_cons, pow_succ]
        have h1 : 16 * a + d + 1 ≤ (a + 1) * 16 := by omega
        calc (16 * a + d + 1) * 16 ^ rest.length
            ≤ (a + 1) * 16 * 16 ^ rest.length :=
              Nat.mul_le_mul_right _ h1
          _ = (a + 1) * (16 ^ rest.length * 16) := by ring
      omega

theorem dropWhile_eq_self_of_none (p : Char → Bool) :
    ∀ cs : List Char, (∀ c ∈ cs, p c = false) → cs.dropWhile p = cs := by
  intro cs h
  cases cs with
  | nil => rfl
  | cons c rest =>
    rw [List.dropWhile_cons, h c (List.mem_cons_self c rest)]
    simp

theorem stripEnds_eq_self (p : Char → Bool) (cs : List Char)
    (h : ∀ c ∈ cs, p c = false) : stripEnds p cs = cs := by
  unfold stripEnds
  rw [dropWhile_eq_self_of_none p cs h,
    dropWhile_eq_self_of_none p cs.reverse (fun c hc => h c (List.mem_reverse.mp hc)),
    List.reverse_reverse]

theorem removeSubGo_eq_self (p : Char) (ps : List Char) :
    ∀ (fuel : Nat) (cs : List Char), (∀ c ∈ cs, ¬ c = p) → removeSubGo p ps fuel cs = cs := by
  intro fuel
  induction fuel with
  | zero => intro cs _; cases cs <;> rfl
  | succ k ih =>
    intro cs h
    cases cs with
    | nil => rfl
    | cons c rest =>
      rw [removeSubGo, if_neg, ih rest (fun x hx => h x (List.mem_cons_of_mem _ hx))]
      intro hand
      exact h c (List.mem_cons_self c rest) hand.1.symm

theorem removeSub_eq_self (p : Char) (ps cs : List Char)
    (h : ∀ c ∈ cs, ¬ c = p) : removeSub p ps cs = cs :=
  removeSubGo_eq_self p ps cs.length cs h

theorem filter_eq_self_of (p : Char → Bool) :
    ∀ cs : List Char, (∀ c ∈ cs, p c = true) → cs.filter p = cs := by
  intro cs
  induction cs with
  | nil => intro; rfl
  | cons c rest ih =>
    intro h
    rw [List.filter_cons, if_pos (h c (List.mem_cons_self c rest)),
      ih (fun x hx => h x (List.mem_cons_of_mem _ hx))]

theorem uuidHexClean_of_hex (cs : List Char) (h : ∀ c ∈ cs, isHexDigitChar c = true) :
    uuidHexClean cs = cs := by
  have hprops : ∀ c ∈ cs, ¬ c = 'u' ∧ braceChar c = false ∧ ¬ c = '-' := by
    intro c hc
    have hs := hexPairs_fst_spec c (isHex_mem c (h c hc))
    exact ⟨hs.2.2.2.2.2.1, hs.2.2.2.2.2.2, hs.2.1⟩
  unfold uuidHexClean
  rw [removeSub_eq_self _ _ cs (fun c hc => (hprops c hc).1),
    removeSub_eq_self _ _ cs (fun c hc => (hprops c hc).1),
    stripEnds_eq_self _ cs (fun c hc => (hprops c hc).2.1)]
  refine filter_eq_self_of _ cs ?_
  intro c hc
  simpa using (hprops c hc).2.2

theorem pyHexBody_eq (cs : List Char) (h : ∀ c ∈ cs, ¬ c = 'x' ∧ ¬ c = 'X') :
    pyHexBody cs = parseHexList cs := by
  unfold pyHexBody
  split
  · next c rest =>
    rw [if_neg]
    intro hor
    have hc : c ∈ '0' :: c :: rest := List.mem_cons_of_mem _ (List.mem_cons_self _ _)
    rcases hor with h1 | h2
    · exact (h c hc).1 h1
    · exact (h c hc).2 h2
  · rfl

theorem pyLong16_of_hex (cs : List Char) (h : ∀ c ∈ cs, isHexDigitChar c = true) :
    pyLong16 cs = (parseHexList cs).map Int.ofNat := by
  have hspec : ∀ c ∈ cs, ¬ c = '+' ∧ ¬ c = '-' ∧ ¬ c = 'x' ∧ ¬ c = 'X' ∧ isPyWs c = false := by
    intro c hc
    have hs := hexPairs_fst_spec c (isHex_mem c (h c hc))
    exact ⟨hs.1, hs.2.1, hs.2.2.1, hs.2.2.2.1, hs.2.2.2.2.1⟩
  have hstrip : stripEnds isPyWs cs = cs :=
    stripEnds_eq_self _ cs (fun c hc => (hspec c hc).2.2.2.2)
  unfold pyLong16
  rw [hstrip]
  split
  · exfalso
    exact (hspec '+' (List.mem_cons_self _ _)).1 rfl
  · exfalso
    exact (hspec '-' (List.mem_cons_self _ _)).2.1 rfl
  · rw [pyHexBody_eq _ (fun c hc => ⟨(hspec c hc).2.2.1, (hspec c hc).2.2.2.1⟩)]

theorem uuidFromList_toHex32 (n : Nat) (h : n < 16 ^ 32) :
    uuidFromList (toHexAux 32 n []) = some n := by
  have hmemL : ∀ c ∈ toHexAux 32 n [], c ∈ lowerHexChars := by
    intro c hc
    rcases toHexAux_mem 32 n [] c hc with h1 | h2
    · exact h1
    · simp at h2
  have hhex : ∀ c ∈ toHexAux 32 n [], isHexDigitChar c = true :=
    fun c hc => (lowerHex_spec c (hmemL c hc)).1
  unfold uuidFromList
  rw [uuidHexClean_of_hex _ hhex, if_pos (by rw [toHexAux_length]; rfl),
    pyLong16_of_hex _ hhex, parseHexList_toHex32 n h]
  have hlt : (n : Int) < 2 ^ 128 := by
    have : (16 : Nat) ^ 32 = 2 ^ 128 := by norm_num
    rw [this] at h
    exact_mod_cast h
  simp only [Option.map_some']
  rw [if_pos ⟨Int.ofNat_nonneg n, hlt⟩]
  simp

theorem uuidFromList_isSome_of_hex32 (cs : List Char)
    (hhex : ∀ c ∈ cs, isHexDigitChar c = true) (hlen : cs.length = 32) :
    (uuidFromList cs).isSome = true := by
  unfold uuidFromList
  rw [uuidHexClean_of_hex _ hhex, if_pos hlen, pyLong16_of_hex _ hhex]
  have hne : cs.isEmpty = false := by
    cases cs with
    | nil => simp at hlen
    | cons c rest => rfl
  unfold parseHexList
  rw [hne]
  simp only [Bool.false_eq_true, if_false]
  cases hg : parseHexGo 0 cs with
  | none =>
    exfalso
    have : ∀ (cs : List Char) (a : Nat), (∀ c ∈ cs, isHexDigitChar c = true) →
        ¬ parseHexGo a cs = none := by
      intro cs0
      induction cs0 with
      | nil => intro a _ hcon; simp [parseHexGo] at hcon
      | cons c rest ih =>
        intro a hh hcon
        rw [parseHexGo] at hcon
        cases hd : hexDigitVal c with
        | none =>
          have := hh c (List.mem_cons_self _ _)
          unfold isHexDigitChar at this
          rw [hd] at this
          simp at this
        | some d =>
          rw [hd] at hcon
          exact ih (16 * a + d) (fun x hx => hh x (List.mem_cons_of_mem _ hx)) hcon
    exact this cs 0 hhex hg
  | some v =>
    have hub := parseHexGo_lt cs 0 v hg
    rw [hlen] at hub
    have hlt : (v : Int) < 2 ^ 128 := by
      have h1 : (1 : Nat) * 16 ^ 32 = 2 ^ 128 := by norm_num
      rw [h1] at hub
      exact_mod_cast hub
    simp only [Option.map_some']
    rw [if_pos ⟨Int.ofNat_nonneg v, hlt⟩]
    rfl

/-! ### Lemmas about URL splitting -/

theorem takeUntil_all_miss (delims : List Char) :
    ∀ cs : List Char, (∀ c ∈ cs, c ∉ delims) → takeUntilDelims delims cs = (cs, []) := by
  intro cs
  induction cs with
  | nil => intro; rfl
  | cons c rest ih =>
    intro h
    rw [takeUntilDelims, if_neg (h c (List.mem_cons_self c rest)),
      ih (fun x hx => h x (List.mem_cons_of_mem c hx))]

theorem takeUntil_split (delims : List Char) (d : Char) (hd : d ∈ delims) :
    ∀ xs ys : List Char, (∀ c ∈ xs, c ∉ delims) →
      takeUntilDelims delims (xs ++ d :: ys) = (xs, d :: ys) := by
  intro xs
  induction xs with
  | nil => intro ys _; rw [List.nil_append, takeUntilDelims, if_pos hd]
  | cons c rest ih =>
    intro ys h
    rw [List.cons_append, takeUntilDelims, if_neg (h c (List.mem_cons_self c rest)),
      ih ys (fun x hx => h x (List.mem_cons_of_mem c hx))]

theorem pySplit_no_sep (sep : Char) :
    ∀ cs : List Char, (∀ c ∈ cs, ¬ c = sep) → pySplit sep cs = [cs] := by
  intro cs
  induction cs with
  | nil => intro; rfl
  | cons c rest ih =>
    intro h
    rw [pySplit, if_neg (h c (List.mem_cons_self c rest)),
      ih (fun x hx => h x (List.mem_cons_of_mem c hx))]

theorem pySplit_append (sep : Char) (ys : List Char) :
    ∀ xs : List Char, (∀ c ∈ xs, ¬ c = sep) →
      pySplit sep (xs ++ sep :: ys) = xs :: pySplit sep ys := by
  intro xs
  induction xs with
  | nil =>
    intro _
    rw [List.nil_append, pySplit, if_pos rfl]
  | cons c rest ih =>
    intro h
    rw [List.cons_append, pySplit, if_neg (h c (List.mem_cons_self c rest)),
      ih (fun x hx => h x (List.mem_cons_of_mem c hx))]

/-- How `urlsplit` decomposes the URLs `get_function_url` builds: for a peer
id free of `/`, `?`, `#` and `:`-only constraints, and any 128-bit function
id, the parse recovers the scheme, the peer id and the path. -/
theorem pyUrlsplit_functionUrl (ownid : String) (fid : Nat)
    (hown : ∀ c ∈ ownid.data, ¬ c = '/' ∧ ¬ c = '?' ∧ ¬ c = '#') :
    pyUrlsplit ((functionUrl ownid fid).data) =
      ⟨"anycall", ownid,
       String.mk ('/' :: ("functions".data ++ '/' :: toHexAux 32 fid []))⟩ := by
  have hhexmem : ∀ c ∈ toHexAux 32 fid [], c ∈ lowerHexChars := by
    intro c hc
    rcases toHexAux_mem 32 fid [] c hc with h1 | h2
    · exact h1
    · simp at h2
  have hdata : (functionUrl ownid fid).data
      = "anycall".data ++ ':' :: ('/' :: '/' ::
          (ownid.data ++ '/' :: ("functions".data ++ '/' :: toHexAux 32 fid []))) := by
    show ("anycall://" ++ ownid ++ "/functions/" ++ String.mk (toHexAux 32 fid [])).data = _
    simp only [String.data_append]
    show "anycall://".data ++ ownid.data ++ "/functions/".data ++ toHexAux 32 fid [] = _
    simp only [List.append_assoc]
    rfl
  have hsplit1 : takeUntilDelims [':'] ((functionUrl ownid fid).data)
      = ("anycall".data, ':' :: ('/' :: '/' ::
          (ownid.data ++ '/' :: ("functions".data ++ '/' :: toHexAux 32 fid [])))) := by
    rw [hdata]
    exact takeUntil_split [':'] ':' (by decide) "anycall".data _ (by decide)
  have hscheme : splitScheme ((functionUrl ownid fid).data)
      = ("anycall".data, '/' :: '/' ::
          (ownid.data ++ '/' :: ("functions".data ++ '/' :: toHexAux 32 fid []))) := by
    unfold splitScheme
    rw [hsplit1]
    dsimp only
    rw [if_neg (by simp), if_pos]
    · rfl
    refine ⟨by decide, by decide, Or.inr ?_⟩
    simp [List.all_cons]
  have hnetloc : splitNetloc ('/' :: '/' ::
        (ownid.data ++ '/' :: ("functions".data ++ '/' :: toHexAux 32 fid [])))
      = (ownid.data, '/' :: ("functions".data ++ '/' :: toHexAux 32 fid [])) := by
    unfold splitNetloc
    rw [if_pos (by rfl)]
    show takeUntilDelims ['/', '?', '#']
        (ownid.data ++ '/' :: ("functions".data ++ '/' :: toHexAux 32 fid [])) = _
    refine takeUntil_split _ '/' (by decide) ownid.data _ ?_
    intro c hc
    have hp := hown c hc
    simp only [List.mem_cons, List.not_mem_nil]
    push_neg
    exact ⟨hp.1, hp.2.1, hp.2.2, by simp⟩
  have hrestmem : ∀ c ∈ '/' :: ("functions".data ++ '/' :: toHexAux 32 fid []),
      ¬ c = '#' ∧ ¬ c = '?' := by
    intro c hc
    rcases List.mem_cons.mp hc with rfl | hc1
    · exact ⟨by decide, by decide⟩
    rcases List.mem_append.mp hc1 with hc2 | hc3
    · have : ∀ x ∈ "functions".data, ¬ x = '#' ∧ ¬ x = '?' := by decide
      exact this c hc2
    rcases List.mem_cons.mp hc3 with rfl | hc4
    · exact ⟨by decide, by decide⟩
    · have hl := lowerHex_spec c (hhexmem c hc4)
      exact ⟨hl.2.2.2.1, hl.2.2.1⟩
  have hfrag : takeUntilDelims ['#'] ('/' :: ("functions".data ++ '/' :: toHexAux 32 fid []))
      = ('/' :: ("functions".data ++ '/' :: toHexAux 32 fid []), []) := by
    refine takeUntil_all_miss _ _ ?_
    intro c hc
    simp only [List.mem_cons, List.not_mem_nil]
    push_neg
    exact ⟨(hrestmem c hc).1, by simp⟩
  have hquery : takeUntilDelims ['?'] ('/' :: ("functions".data ++ '/' :: toHexAux 32 fid []))
      = ('/' :: ("functions".data ++ '/' :: toHexAux 32 fid []), []) := by
    refine takeUntil_all_miss _ _ ?_
    intro c hc
    simp only [List.mem_cons, List.not_mem_nil]
    push_neg
    exact ⟨(hrestmem c hc).2, by simp⟩
  unfold pyUrlsplit
  rw [hscheme, hnetloc]
  simp only [hfrag, hquery]

/-- `create_function_stub` inverts `get_function_url`: parsing the URL built
for `(ownid, fid)` yields the stub `⟨ownid, fid⟩`. -/
theorem create_function_stub_functionUrl (ownid : String) (fid : Nat)
    (hown : ∀ c ∈ ownid.data, ¬ c = '/' ∧ ¬ c = '?' ∧ ¬ c = '#' ∧ ¬ c = '[' ∧ ¬ c = ']')
    (hfid : fid < 16 ^ 32) :
    create_function_stub (functionUrl ownid fid) = Except.ok ⟨ownid, fid⟩ := by
  have hhexmem : ∀ c ∈ toHexAux 32 fid [], c ∈ lowerHexChars := by
    intro c hc
    rcases toHexAux_mem 32 fid [] c hc with h1 | h2
    · exact h1
    · simp at h2
  have hurl := pyUrlsplit_functionUrl ownid fid
    (fun c hc => ⟨(hown c hc).1, (hown c hc).2.1, (hown c hc).2.2.1⟩)
  have hparts : urlPathParts (functionUrl ownid fid)
      = [[], "functions".data, toHexAux 32 fid []] := by
    unfold urlPathParts
    rw [hurl]
    show pySplit '/' ('/' :: ("functions".data ++ '/' :: toHexAux 32 fid [])) = _
    rw [pySplit, if_pos rfl, pySplit_append '/' _ "functions".data (by decide),
      pySplit_no_sep '/' (toHexAux 32 fid [])
        (fun c hc => (lowerHex_spec c (hhexmem c hc)).2.1)]
  have hnolb : ¬ '[' ∈ ownid.data := fun hm => ((hown _ hm).2.2.2.1) rfl
  have hnorb : ¬ ']' ∈ ownid.data := fun hm => ((hown _ hm).2.2.2.2) rfl
  unfold create_function_stub
  rw [hurl, hparts]
  rw [if_neg (by simp [netlocBadBrackets, hnolb, hnorb]), if_neg (by simp), if_neg (by simp)]
  rw [show ([[], "functions".data, toHexAux 32 fid []].getD 2 []) = toHexAux 32 fid [] from rfl]
  rw [uuidFromList_toHex32 fid hfid]

/-! ### Lemmas about dict operations -/

theorem dictLookup_insert_self {K V : Type} [DecidableEq K] :
    ∀ (d : List (K × V)) (k : K) (v : V), dictLookup (dictInsert d k v) k = some v := by
  intro d k v
  induction d with
  | nil => simp [dictInsert, dictLookup]
  | cons e rest ih =>
    by_cases he : e.1 = k
    · simp [dictInsert, he, dictLookup]
    · simp [dictInsert, he, dictLookup, ih]

theorem dictContains_insert_self {K V : Type} [DecidableEq K]
    (d : List (K × V)) (k : K) (v : V) : dictContains (dictInsert d k v) k = true := by
  unfold dictContains
  rw [dictLookup_insert_self]
  rfl

theorem dictRemove_insert_fresh {K V : Type} [DecidableEq K] :
    ∀ (d : List (K × V)) (k : K) (v : V), (∀ e ∈ d, ¬ e.1 = k) →
      dictRemove (dictInsert d k v) k = d := by
  intro d k v
  induction d with
  | nil => intro; simp [dictInsert, dictRemove]
  | cons e rest ih =>
    intro h
    have he : ¬ e.1 = k := h e (List.mem_cons_self e rest)
    simp only [dictInsert, if_neg he, dictRemove]
    rw [ih (fun x hx => h x (List.mem_cons_of_mem e hx))]

theorem dictContains_remove_self {K V : Type} [DecidableEq K] :
    ∀ d : List (K × V), ∀ k : K, (d.map (fun e => e.1)).Nodup →
      dictContains (dictRemove d k) k = false := by
  intro d
  induction d with
  | nil => intro k _; rfl
  | cons e rest ih =>
    intro k hn
    simp only [List.map_cons, List.nodup_cons] at hn
    by_cases he : e.1 = k
    · rw [dictRemove, if_pos he]
      subst he
      unfold dictContains
      cases hl : dictLookup rest e.1 with
      | none => rfl
      | some v =>
        exfalso
        have hmem : e.1 ∈ rest.map (fun e => e.1) := by
          clear ih hn
          induction rest with
          | nil => simp [dictLookup] at hl
          | cons e2 rest2 ih2 =>
            rw [dictLookup] at hl
            by_cases h2 : e2.1 = e.1
            · simp [h2]
            · rw [if_neg h2] at hl
              simp [ih2 hl]
        exact hn.1 hmem
    · rw [dictRemove, if_neg he]
      unfold dictContains
      rw [dictLookup, if_neg he]
      exact ih k hn.2

theorem dictLookup_mem_keys {K V : Type} [DecidableEq K] :
    ∀ (d : List (K × V)) (k : K) (v : V), dictLookup d k = some v →
      (k, v) ∈ d := by
  intro d
  induction d with
  | nil => intro k v h; simp [dictLookup] at h
  | cons e rest ih =>
    intro k v h
    rw [dictLookup] at h
    by_cases he : e.1 = k
    · rw [if_pos he] at h
      simp only [Option.some.injEq] at h
      have hkv : (k, v) = e := by rw [← he, ← h]
      rw [hkv]
      exact List.mem_cons_self e rest
    · rw [if_neg he] at h
      exact List.mem_cons_of_mem e (ih k v h)

theorem dictLookup_of_mem_nodup {K V : Type} [DecidableEq K] :
    ∀ d : List (K × V), ∀ k : K, ∀ v : V, (d.map (fun e => e.1)).Nodup →
      (k, v) ∈ d → dictLookup d k = some v := by
  intro d
  induction d with
  | nil => intro k v _ hm; simp at hm
  | cons e rest ih =>
    intro k v hn hm
    simp only [List.map_cons, List.nodup_cons] at hn
    rcases List.mem_cons.mp hm with rfl | hm2
    · rw [dictLookup, if_pos rfl]
    · rw [dictLookup]
      by_cases he : e.1 = k
      · exfalso
        have : k ∈ rest.map (fun e => e.1) := by
          refine List.mem_map.mpr ⟨(k, v), hm2, rfl⟩
        rw [he] at hn
        exact hn.1 this
      · rw [if_neg he]
        exact ih k v hn.2 hm2

theorem lookupByFn_some_mem {α : Type} [DecidableEq α] :
    ∀ (d : List (Nat × α)) (f : α) (fid : Nat), lookupByFn d f = some fid →
      (fid, f) ∈ d := by
  intro d
  induction d with
  | nil => intro f fid h; simp [lookupByFn] at h
  | cons e rest ih =>
    intro f fid h
    rw [lookupByFn] at h
    by_cases he : e.2 = f
    · rw [if_pos he] at h
      simp only [Option.some.injEq] at h
      have hkv : (fid, f) = e := by rw [← h, ← he]
      rw [hkv]
      exact List.mem_cons_self e rest
    · rw [if_neg he] at h
      exact List.mem_cons_of_mem e (ih f fid h)

theorem lookupByFn_none_all {α : Type} [DecidableEq α] :
    ∀ (d : List (Nat × α)) (f : α), lookupByFn d f = none → ∀ e ∈ d, ¬ e.2 = f := by
  intro d
  induction d with
  | nil => intro f _ e he; simp at he
  | cons e0 rest ih =>
    intro f h e he
    rw [lookupByFn] at h
    by_cases h0 : e0.2 = f
    · rw [if_pos h0] at h; simp at h
    · rw [if_neg h0] at h
      rcases List.mem_cons.mp he with rfl | h2
      · exact h0
      · exact ih f h e h2

theorem lookupByFn_insert_of_none {α : Type} [DecidableEq α] :
    ∀ (d : List (Nat × α)) (f : α) (k : Nat), lookupByFn d f = none →
      lookupByFn (dictInsert d k f) f = some k := by
  intro d
  induction d with
  | nil => intro f k _; simp [dictInsert, lookupByFn]
  | cons e rest ih =>
    intro f k h
    rw [lookupByFn] at h
    by_cases he2 : e.2 = f
    · rw [if_pos he2] at h; simp at h
    · rw [if_neg he2] at h
      rw [dictInsert]
      by_cases he1 : e.1 = k
      · rw [if_pos he1, lookupByFn, if_pos rfl]
      · rw [if_neg he1, lookupByFn, if_neg he2]
        exact ih f k h

theorem dictLookup_insert_of_none_val {α : Type} [DecidableEq α] :
    ∀ (d : List (Nat × α)) (f : α) (k : Nat), (∀ e ∈ d, ¬ e.1 = k) →
      dictLookup (dictInsert d k f) k = some f :=
  fun d f k _ => dictLookup_insert_self d k f

/-! ### Claim theorems -/

/-- C7: `get_function_url` is idempotent on the same callable reference: a
second call on the same `RPCSystem` returns the same URL and leaves the
system unchanged — in particular no second FunctionId is allocated for a
callable that is already registered. -/
theorem get_function_url_idempotent {α β : Type} [DecidableEq α] (s : RPCSystem α β) (f : α) :
    (get_function_url (get_function_url s f).2 f).1 = (get_function_url s f).1 ∧
    (get_function_url (get_function_url s f).2 f).2 = (get_function_url s f).2 := by
  unfold get_function_url
  cases hl : lookupByFn s.functions f with
  | some fid => simp [hl]
  | none =>
    simp only [hl]
    have h2 := lookupByFn_insert_of_none s.functions f s.nextId hl
    simp [h2]

/-- C6: registering `f` with `get_function_url` and building a stub from the
returned URL round-trips: the stub parses back to the registering system's
own peer id and `f`'s assigned FunctionId; invoking the stub sends a `_Call`
carrying exactly that function id and the given `args`/`kwargs`; and
`_Call_received` on the registering system invokes `f` itself with exactly
those `args`/`kwargs`. -/
theorem url_stub_roundtrip {α β : Type} [DecidableEq α] (s : RPCSystem α β) (f : α)
    (hown : ∀ c ∈ s.ownid.data, ¬ c = '/' ∧ ¬ c = '?' ∧ ¬ c = '#' ∧ ¬ c = '[' ∧ ¬ c = ']')
    (hkeys : ∀ e ∈ s.functions, e.1 < 16 ^ 32)
    (hnodup : (s.functions.map (fun e => e.1)).Nodup)
    (hnext : s.nextId < 16 ^ 32) :
    ∃ fid : Nat,
      create_function_stub (get_function_url s f).1 = Except.ok ⟨s.ownid, fid⟩ ∧
      lookupByFn (get_function_url s f).2.functions f = some fid ∧
      lookupById (get_function_url s f).2.functions fid = some f ∧
      (∀ (sys : RPCSystem α β) (args : List β) (kwargs : List (String × β))
          (sendResult : Option (PyFailure β)),
        (stub_call ⟨s.ownid, fid⟩ sys args kwargs sendResult).2.1.get? 1
          = some (SysEvent.sentMsg s.ownid (RpcMsg.call sys.nextId fid args kwargs))) ∧
      (∀ (peer : String) (callid : Nat) (args : List β) (kwargs : List (String × β))
          (runFn : α → List β → List (String × β) → FnOutcome β),
        (Call_received runFn (get_function_url s f).2 peer callid fid args kwargs).2.1.head?
          = some (SysEvent.invoked f args kwargs)) := by
  obtain ⟨fid, hurl, hfid32, hby, hlook⟩ :
      ∃ fid, (get_function_url s f).1 = functionUrl s.ownid fid ∧ fid < 16 ^ 32 ∧
        lookupByFn (get_function_url s f).2.functions f = some fid ∧
        lookupById (get_function_url s f).2.functions fid = some f := by
    cases hl : lookupByFn s.functions f with
    | some fid =>
      have hgu : get_function_url s f = (functionUrl s.ownid fid, s) := by
        unfold get_function_url
        rw [hl]
      have hmem := lookupByFn_some_mem s.functions f fid hl
      exact ⟨fid, by rw [hgu], hkeys (fid, f) hmem, by rw [hgu]; exact hl,
        by rw [hgu]; exact dictLookup_of_mem_nodup s.functions fid f hnodup hmem⟩
    | none =>
      have hgu : get_function_url s f = (functionUrl s.ownid s.nextId,
          { s with functions := dictInsert s.functions s.nextId f,
                   nextId := s.nextId + 1 }) := by
        unfold get_function_url
        rw [hl]
      refine ⟨s.nextId, by rw [hgu], hnext, ?_, ?_⟩
      · rw [hgu]
        exact lookupByFn_insert_of_none s.functions f s.nextId hl
      · rw [hgu]
        exact dictLookup_insert_self s.functions s.nextId f
  refine ⟨fid, ?_, hby, hlook, ?_, ?_⟩
  · rw [hurl]
    exact create_function_stub_functionUrl s.ownid fid hown hfid32
  · intro sys args kwargs sendResult
    cases sendResult <;> rfl
  · intro peer callid args kwargs runFn
    cases hr : runFn f args kwargs with
    | pending h => simp [Call_received, hlook, hr]
    | ret h v => simp [Call_received, hlook, hr, dictContains_insert_self]
    | raised h fv => simp [Call_received, hlook, hr, dictContains_insert_self]

theorem url_stub_roundtrip_witness :
    ∃ fid : Nat,
      create_function_stub (get_function_url sampleSystem 42).1 = Except.ok ⟨"h:1", fid⟩ ∧
      lookupByFn (get_function_url sampleSystem 42).2.functions 42 = some fid ∧
      lookupById (get_function_url sampleSystem 42).2.functions fid = some 42 ∧
      (∀ (sys : RPCSystem Nat Nat) (args : List Nat) (kwargs : List (String × Nat))
          (sendResult : Option (PyFailure Nat)),
        (stub_call ⟨"h:1", fid⟩ sys args kwargs sendResult).2.1.get? 1
          = some (SysEvent.sentMsg "h:1" (RpcMsg.call sys.nextId fid args kwargs))) ∧
      (∀ (peer : String) (callid : Nat) (args : List Nat) (kwargs : List (String × Nat))
          (runFn : Nat → List Nat → List (String × Nat) → FnOutcome Nat),
        (Call_received runFn (get_function_url sampleSystem 42).2 peer callid fid args
            kwargs).2.1.head?
          = some (SysEvent.invoked 42 args kwargs)) :=
  url_stub_roundtrip sampleSystem 42 (by decide) (by decide) (by decide) (by decide)

/-- C8 counterexample: the URL whose function-id component is the standard
hyphenated uuid form (36 characters, not 32 hex characters) is ACCEPTED by
`create_function_stub`, because `uuid.UUID` strips hyphens before checking —
refuting the claim that such URLs are rejected. -/
theorem stub_accepts_hyphenated_uuid_cex :
    spec_id_wellformed "aaaaaaaa-bbbb-cccc-dddd-eeeeffff0000".data = false ∧
    isError (create_function_stub
        "anycall://peer/functions/aaaaaaaa-bbbb-cccc-dddd-eeeeffff0000") = false := by
  decide

/-- C8 (amended): `create_function_stub url` fails exactly when the parsed
scheme is not `anycall`, the path does not split as
`["", "functions", <id>]`, or the id component is not accepted by
`uuid.UUID`.  Every component of exactly 32 hexadecimal characters IS
accepted, but acceptance is wider than the spec's 32-hex grammar: the
normalisation of `uuid.UUID` (dropping `urn:`/`uuid:` markers, braces and
hyphens) also lets other forms through. -/
theorem create_function_stub_malformed_iff :
    (∀ url : String,
      isError (create_function_stub url) = true ↔
        (netlocBadBrackets (pyUrlsplit url.data).netloc.data = true ∨
         ¬ (pyUrlsplit url.data).scheme = "anycall" ∨
         ¬ (∃ idpart, urlPathParts url = [[], "functions".data, idpart]) ∨
         uuidFromList ((urlPathParts url).getD 2 []) = none)) ∧
    (∀ idpart : List Char, spec_id_wellformed idpart = true →
      ¬ uuidFromList idpart = none) := by
  constructor
  · intro url
    unfold create_function_stub
    by_cases hb : netlocBadBrackets (pyUrlsplit url.data).netloc.data = true
    · rw [if_pos hb]
      exact ⟨fun _ => Or.inl hb, fun _ => rfl⟩
    rw [if_neg hb]
    by_cases hs : ¬ (pyUrlsplit url.data).scheme = "anycall"
    · rw [if_pos hs]
      simp only [isError, true_iff]
      exact Or.inr (Or.inl hs)
    · rw [if_neg hs]
      push_neg at hs
      by_cases hp : ¬ (urlPathParts url).length = 3 ∨ ¬ (urlPathParts url).getD 0 [] = []
          ∨ ¬ (urlPathParts url).getD 1 [] = "functions".data
      · rw [if_pos hp]
        simp only [isError, true_iff]
        refine Or.inr (Or.inr (Or.inl ?_))
        rintro ⟨idpart, he⟩
        rw [he] at hp
        simp at hp
      · rw [if_neg hp]
        push_neg at hp
        obtain ⟨h3, h0, h1⟩ := hp
        have hshape : ∃ idpart, urlPathParts url = [[], "functions".data, idpart] := by
          obtain ⟨a, b, c, habc⟩ := List.length_eq_three.mp h3
          rw [habc] at h0 h1 ⊢
          simp only [List.getD] at h0 h1
          refine ⟨c, ?_⟩
          rw [show ([a, b, c].get? 0).getD [] = a from rfl] at h0
          rw [show ([a, b, c].get? 1).getD [] = b from rfl] at h1
          rw [h0, h1]
        cases hu : uuidFromList ((urlPathParts url).getD 2 []) with
        | none =>
          refine ⟨fun _ => Or.inr (Or.inr (Or.inr rfl)), fun _ => rfl⟩
        | some fid =>
          refine ⟨fun hfalse => absurd hfalse Bool.false_ne_true, fun hr => ?_⟩
          rcases hr with h | h | h | h
          · exact absurd h hb
          · exact absurd hs h
          · exact absurd hshape h
          · exact absurd h (by simp)
  · intro idpart h
    unfold spec_id_wellformed at h
    simp only [decide_eq_true_eq, Bool.and_eq_true, List.all_eq_true] at h
    have := uuidFromList_isSome_of_hex32 idpart (fun c hc => h.2 c hc) h.1
    intro hcon
    rw [hcon] at this
    simp at this

/-- C10: every stub returned by `create_function_stub` raises
`AttributeError` from `repr()` and `str()`, because `__repr__` reads
`self.url`, an attribute `__init__` never assigns. -/
theorem stub_repr_attribute_error (url : String) (stub : RPCFunctionStub)
    (_h : create_function_stub url = Except.ok stub) :
    stub_repr stub = Except.error "AttributeError" ∧
    stub_str stub = Except.error "AttributeError" :=
  ⟨rfl, rfl⟩

theorem stub_repr_attribute_error_witness :
    stub_repr ⟨"h:1", 15⟩ = Except.error "AttributeError" ∧
    stub_str ⟨"h:1", 15⟩ = Except.error "AttributeError" :=
  stub_repr_attribute_error "anycall://h:1/functions/0000000000000000000000000000000f"
    ⟨"h:1", 15⟩ (by decide)

/-- C5: `_invoke_function` inserts `(peer, callid) -> handle` into
`_local_to_remote` before the encoded `_Call` is handed to the pool's send
(the insert event precedes the send event, and the table in force at send
time already holds the entry); on send failure the entry is removed —
restoring the table — and the send failure is surfaced instead of the call
handle; on send success the handle is returned and the entry is present. -/
theorem invoke_insert_before_send {α β : Type} (s : RPCSystem α β) (peerid : String)
    (functionid : Nat) (args : List β) (kwargs : List (String × β))
    (sendResult : Option (PyFailure β))
    (hfresh : ∀ e ∈ s.localToRemote, ¬ e.1 = (peerid, s.nextId)) :
    (invoke_function s peerid functionid args kwargs sendResult).2.1.get? 0
        = some (SysEvent.insertedLocal (peerid, s.nextId) s.nextHandle) ∧
    (invoke_function s peerid functionid args kwargs sendResult).2.1.get? 1
        = some (SysEvent.sentMsg peerid (RpcMsg.call s.nextId functionid args kwargs)) ∧
    dictLookup (dictInsert s.localToRemote (peerid, s.nextId) s.nextHandle)
        (peerid, s.nextId) = some s.nextHandle ∧
    (∀ fl, sendResult = some fl →
      (invoke_function s peerid functionid args kwargs sendResult).1.localToRemote
          = s.localToRemote ∧
      (invoke_function s peerid functionid args kwargs sendResult).2.2
          = InvokeOutcome.sendFailed fl) ∧
    (sendResult = none →
      (invoke_function s peerid functionid args kwargs sendResult).2.2
          = InvokeOutcome.handle s.nextHandle ∧
      dictLookup (invoke_function s peerid functionid args kwargs
          sendResult).1.localToRemote (peerid, s.nextId) = some s.nextHandle) := by
  cases sendResult with
  | none =>
    refine ⟨rfl, rfl, dictLookup_insert_self _ _ _, ?_, ?_⟩
    · intro fl hfl
      simp at hfl
    · intro _
      exact ⟨rfl, dictLookup_insert_self _ _ _⟩
  | some fl0 =>
    refine ⟨rfl, rfl, dictLookup_insert_self _ _ _, ?_, ?_⟩
    · intro fl hfl
      simp only [Option.some.injEq] at hfl
      subst hfl
      refine ⟨?_, rfl⟩
      simp only [invoke_function]
      exact dictRemove_insert_fresh s.localToRemote (peerid, s.nextId) s.nextHandle hfresh
    · intro hcon
      simp at hcon

theorem invoke_insert_before_send_witness :
    ((invoke_function sampleSystem "B" 99 [1] [] (some PyFailure.cancelledError)).2.1.get? 0
        = some (SysEvent.insertedLocal ("B", 7) 20) ∧
      (invoke_function sampleSystem "B" 99 [1] [] (some PyFailure.cancelledError)).2.1.get? 1
        = some (SysEvent.sentMsg "B" (RpcMsg.call 7 99 [1] [])) ∧
      dictLookup (dictInsert sampleSystem.localToRemote ("B", 7) 20) ("B", 7) = some 20 ∧
      (∀ fl, (some PyFailure.cancelledError : Option (PyFailure Nat)) = some fl →
        (invoke_function sampleSystem "B" 99 [1] []
            (some PyFailure.cancelledError)).1.localToRemote = sampleSystem.localToRemote ∧
        (invoke_function sampleSystem "B" 99 [1] [] (some PyFailure.cancelledError)).2.2
          = InvokeOutcome.sendFailed fl) ∧
      ((some PyFailure.cancelledError : Option (PyFailure Nat)) = none →
        (invoke_function sampleSystem "B" 99 [1] [] (some PyFailure.cancelledError)).2.2
          = InvokeOutcome.handle 20 ∧
        dictLookup (invoke_function sampleSystem "B" 99 [1] []
            (some PyFailure.cancelledError)).1.localToRemote ("B", 7) = some 20)) :=
  invoke_insert_before_send sampleSystem "B" 99 [1] [] (some PyFailure.cancelledError)
    (by decide)

/-- C4 counterexample: a call is started (entry inserted, send succeeds) and
then cancelled from the caller side.  The cancellation errbacks the handle
with `CancelledError` and sends a best-effort `_CallCancel` — but the
`(peer, callid)` entry is STILL in `_local_to_remote`, refuting the claim
that after caller-side cancellation the entry is no longer present. -/
theorem cancel_leaves_entry_cex :
    dictContains (cancel_call (invoke_function
        (⟨"B", [], [], [], 5, 10, true, none⟩ : RPCSystem Nat Nat)
        "A" 99 [] [] none).1 "A" 5 10).1.localToRemote ("A", 5) = true ∧
    (cancel_call (invoke_function
        (⟨"B", [], [], [], 5, 10, true, none⟩ : RPCSystem Nat Nat)
        "A" 99 [] [] none).1 "A" 5 10).2
      = [SysEvent.sentMsg "A" (RpcMsg.callCancel 5),
         SysEvent.errback 10 PyFailure.cancelledError] := by
  decide

/-- C4 (amended): the `(peer, callid)` entry is removed by
`_CallReturn_received` and `_CallFail_received` (exactly once — with
distinct keys the key is gone afterwards) and each resolves the entry's own
handle; caller-side cancellation resolves the handle with `CancelledError`
and best-effort-sends `_CallCancel`, but does NOT remove the entry from the
local-to-remote table. -/
theorem call_entry_removal {α β : Type} (s : RPCSystem α β) (peerid : String)
    (callid h : Nat) (v : β) (fl : PyFailure β)
    (hin : dictLookup s.localToRemote (peerid, callid) = some h)
    (hnodup : (s.localToRemote.map (fun e => e.1)).Nodup) :
    ((CallReturn_received s peerid callid v).1.localToRemote
        = dictRemove s.localToRemote (peerid, callid) ∧
      dictContains (CallReturn_received s peerid callid v).1.localToRemote
          (peerid, callid) = false ∧
      (CallReturn_received s peerid callid v).2.1
        = [SysEvent.removedLocal (peerid, callid), SysEvent.callback h v]) ∧
    ((CallFail_received s peerid callid fl).1.localToRemote
        = dictRemove s.localToRemote (peerid, callid) ∧
      dictContains (CallFail_received s peerid callid fl).1.localToRemote
          (peerid, callid) = false ∧
      (CallFail_received s peerid callid fl).2.1
        = [SysEvent.removedLocal (peerid, callid), SysEvent.errback h fl]) ∧
    ((cancel_call s peerid callid h).1 = s ∧
      (cancel_call s peerid callid h).2
        = [SysEvent.sentMsg peerid (RpcMsg.callCancel callid),
           SysEvent.errback h PyFailure.cancelledError]) := by
  have hrem := dictContains_remove_self s.localToRemote (peerid, callid) hnodup
  have hcont : dictContains s.localToRemote (peerid, callid) = true := by
    unfold dictContains
    rw [hin]
    rfl
  refine ⟨?_, ?_, ?_⟩
  · simp [CallReturn_received, hin, hrem]
  · simp [CallFail_received, hin, hrem]
  · simp [cancel_call, hcont]

theorem call_entry_removal_witness :
    ((CallReturn_received (⟨"B", [], [(("A", 5), 10)], [], 6, 11, true, none⟩ :
          RPCSystem Nat Nat) "A" 5 3).1.localToRemote
        = dictRemove [(("A", 5), 10)] ("A", 5) ∧
      dictContains (CallReturn_received (⟨"B", [], [(("A", 5), 10)], [], 6, 11, true, none⟩ :
          RPCSystem Nat Nat) "A" 5 3).1.localToRemote ("A", 5) = false ∧
      (CallReturn_received (⟨"B", [], [(("A", 5), 10)], [], 6, 11, true, none⟩ :
          RPCSystem Nat Nat) "A" 5 3).2.1
        = [SysEvent.removedLocal ("A", 5), SysEvent.callback 10 3]) ∧
    ((CallFail_received (⟨"B", [], [(("A", 5), 10)], [], 6, 11, true, none⟩ :
          RPCSystem Nat Nat) "A" 5 PyFailure.cancelledError).1.localToRemote
        = dictRemove [(("A", 5), 10)] ("A", 5) ∧
      dictContains (CallFail_received (⟨"B", [], [(("A", 5), 10)], [], 6, 11, true, none⟩ :
          RPCSystem Nat Nat) "A" 5 PyFailure.cancelledError).1.localToRemote ("A", 5) = false ∧
      (CallFail_received (⟨"B", [], [(("A", 5), 10)], [], 6, 11, true, none⟩ :
          RPCSystem Nat Nat) "A" 5 PyFailure.cancelledError).2.1
        = [SysEvent.removedLocal ("A", 5), SysEvent.errback 10 PyFailure.cancelledError]) ∧
    ((cancel_call (⟨"B", [], [(("A", 5), 10)], [], 6, 11, true, none⟩ :
          RPCSystem Nat Nat) "A" 5 10).1
        = ⟨"B", [], [(("A", 5), 10)], [], 6, 11, true, none⟩ ∧
      (cancel_call (⟨"B", [], [(("A", 5), 10)], [], 6, 11, true, none⟩ :
          RPCSystem Nat Nat) "A" 5 10).2
        = [SysEvent.sentMsg "A" (RpcMsg.callCancel 5),
           SysEvent.errback 10 PyFailure.cancelledError]) :=
  call_entry_removal (⟨"B", [], [(("A", 5), 10)], [], 6, 11, true, none⟩ : RPCSystem Nat Nat)
    "A" 5 10 3 PyFailure.cancelledError (by decide) (by decide)

/-- C1 counterexample: a `_Call` for the unregistered function id 77 arrives
at a system with an empty function table.  The result is ONLY a local log
line — no `_CallFail` (or any other message) is sent back to the calling
peer, refuting the claim that the caller is reported the failure. -/
theorem unknown_function_no_callfail_cex :
    packet_received runFnConst (⟨"A", [], [], [], 0, 0, true, none⟩ : RPCSystem Nat Nat)
        "B" "RPC" (RpcMsg.call 1 77 [] [])
      = (⟨"A", [], [], [], 0, 0, true, none⟩,
         [SysEvent.loggedError "Call for unregistered function."]) := by
  decide

/-- C1 (amended): when a `_Call` whose function id is not registered is
received, `_Call_received` raises `ValueError("Call for unregistered
function.")`; `_packet_received` catches it and logs it locally.  No
`_CallFail` — no message at all — is sent to the calling peer, and the state
is unchanged. -/
theorem unknown_function_logged {α β : Type} [DecidableEq α]
    (runFn : α → List β → List (String × β) → FnOutcome β)
    (s : RPCSystem α β) (peerid : String) (callid functionid : Nat)
    (args : List β) (kwargs : List (String × β))
    (h : lookupById s.functions functionid = none) :
    packet_received runFn s peerid "RPC" (RpcMsg.call callid functionid args kwargs)
      = (s, [SysEvent.loggedError "Call for unregistered function."]) := by
  simp [packet_received, Call_received, h]

theorem unknown_function_logged_witness :
    packet_received runFnConst (⟨"A", [(3, 8)], [], [], 0, 0, true, none⟩ : RPCSystem Nat Nat)
        "B" "RPC" (RpcMsg.call 2 99 [5] [])
      = (⟨"A", [(3, 8)], [], [], 0, 0, true, none⟩,
         [SysEvent.loggedError "Call for unregistered function."]) :=
  unknown_function_logged runFnConst (⟨"A", [(3, 8)], [], [], 0, 0, true, none⟩ :
      RPCSystem Nat Nat) "B" 2 99 [5] [] (by decide)

/-- C2 counterexample: `close` on a system with a pending outbound call and
no ping iteration in flight.  Afterwards the local-to-remote table still
holds the entry (the claim says both tables are empty), and the produced
events are only the ping-loop stop and the pool close — the pending call's
handle is not resolved with any failure, `ShutdownError` or otherwise. -/
theorem close_tables_not_emptied_cex :
    (close (⟨"A", [], [(("B", 1), 10)], [(("C", 2), 11)], 0, 0, true, none⟩ :
        RPCSystem Nat Nat)).1.localToRemote = [(("B", 1), 10)] ∧
    (close (⟨"A", [], [(("B", 1), 10)], [(("C", 2), 11)], 0, 0, true, none⟩ :
        RPCSystem Nat Nat)).1.remoteToLocal = [(("C", 2), 11)] ∧
    (close (⟨"A", [], [(("B", 1), 10)], [(("C", 2), 11)], 0, 0, true, none⟩ :
        RPCSystem Nat Nat)).2 = [SysEvent.pingLoopStopped, SysEvent.poolClosed] := by
  decide

/-- C2 (amended): `close` stops the ping loop, cancels the in-flight ping
iteration if there is one, and closes the connection pool.  It does not
empty either call table and resolves no pending call with a shutdown error
(no `ShutdownError` exists in the code): with no ping iteration in flight,
both tables are exactly as before the close and the only events are the
ping-loop stop and the pool close. -/
theorem close_preserves_tables {α β : Type} (s : RPCSystem α β)
    (hno : s.pingCurrentIteration = none) :
    (close s).1.localToRemote = s.localToRemote ∧
    (close s).1.remoteToLocal = s.remoteToLocal ∧
    (close s).2 = [SysEvent.pingLoopStopped, SysEvent.poolClosed] := by
  refine ⟨rfl, rfl, ?_⟩
  simp [close, hno]

theorem close_preserves_tables_witness :
    (close (⟨"A", [], [(("B", 3), 12)], [], 0, 0, true, none⟩ :
        RPCSystem Nat Nat)).1.localToRemote = [(("B", 3), 12)] ∧
    (close (⟨"A", [], [(("B", 3), 12)], [], 0, 0, true, none⟩ :
        RPCSystem Nat Nat)).1.remoteToLocal = [] ∧
    (close (⟨"A", [], [(("B", 3), 12)], [], 0, 0, true, none⟩ :
        RPCSystem Nat Nat)).2 = [SysEvent.pingLoopStopped, SysEvent.poolClosed] :=
  close_preserves_tables (⟨"A", [], [(("B", 3), 12)], [], 0, 0, true, none⟩ :
      RPCSystem Nat Nat) (by decide)

/-- C3 evidence at the failing input: two calls are in flight, to peers
`"A"` (callid 1, handle 10) and `"B"` (callid 2, handle 11); the ping-loop
iteration snapshots `[("A",1), ("B",2)]`, and the ping sent for `("A", 1)`
times out.  `timeout_deferred` turns the cancellation into
`TimeoutError("Lost communication to peer during call.")`, and the `failed`
callback — whose body late-binds the loop variables `peerid, callid` — pops
the LAST snapshot entry `("B", 2)` and errbacks handle 11, leaving
`("A", 1)` (whose ping actually failed) in the table: the failure lands on
the wrong call. -/
theorem ping_failure_resolves_last_entry :
    ping_failed_callback (α := Nat) [("A", 1), ("B", 2)]
        [(("A", 1), 10), (("B", 2), 11)]
        (timeout_got_result "Lost communication to peer during call." true
          (PyFailure.cancelledError (β := Nat)))
      = ([(("A", 1), 10)],
         [SysEvent.removedLocal ("B", 2),
          SysEvent.errback 11
            (PyFailure.timeoutError "Lost communication to peer during call.")]) := by
  decide

/-- C9 counterexample: a LIVE session (protocol 7, peer `"A"`, handshake
deferred already fired, registered once in the pool) receives a second
`HANDSHAKE` carrying the same peer id.  The session is registered with the
pool a SECOND time (`[7, 7]`), the stream is NOT closed
(`loseConnection` is absent), and the only effect besides the duplicate
registration is an uncaught `AlreadyCalledError` — refuting the claim that
the session is failed and not re-registered. -/
theorem duplicate_handshake_cex :
    pool_packet_received 7 ⟨some "A", true, true⟩ [("A", [7])] HANDSHAKE "A"
      = (⟨some "A", true, true⟩, [("A", [7, 7])], [PoolEvent.uncaughtAlreadyCalled]) := by
  decide

/-- C9 (amended): a second `HANDSHAKE` on a LIVE session is not failed as a
session-fatal protocol error.  If the carried peer id equals the stored one,
the `else` branch runs again: the session is registered with the pool a
second time and firing the already-fired handshake deferred raises an
uncaught `AlreadyCalledError` (not a `ValueError`, so the handler does not
close the stream).  Only a differing peer id takes the `ValueError` path,
which logs and closes the stream without re-registering; its
`handshake_deferred.errback()` then also raises an uncaught
`AlreadyCalledError`, because on a LIVE session the handshake deferred has
already been fired — the deferred is never errbacked. -/
theorem duplicate_handshake_behavior (st : PoolProtocolState)
    (conns : List (String × List Nat)) (pid : Nat) (p payload : String)
    (hpeer : st.peer = some p) (hne : ¬ p = "") (hfired : st.hsFired = true) :
    (payload = p →
      (pool_packet_received pid st conns HANDSHAKE payload).2.1
          = connection_made conns payload pid ∧
      (pool_packet_received pid st conns HANDSHAKE payload).2.2
          = [PoolEvent.uncaughtAlreadyCalled]) ∧
    (¬ payload = p →
      (pool_packet_received pid st conns HANDSHAKE payload).2.1 = conns ∧
      (pool_packet_received pid st conns HANDSHAKE payload).2.2
          = [PoolEvent.loggedErr "peer mismatch", PoolEvent.loseConnection,
             PoolEvent.uncaughtAlreadyCalled]) := by
  constructor
  · intro heq
    subst heq
    have hcond : ¬ (optTruthy st.peer ∧ ¬ st.peer = some payload) := by
      rw [hpeer]
      rintro ⟨-, hne2⟩
      exact hne2 rfl
    simp [pool_packet_received, hcond, hfired]
  · intro hneq
    have htruthy : optTruthy st.peer = true := by
      rw [hpeer]
      simp [optTruthy, hne]
    have hcond : optTruthy st.peer ∧ ¬ st.peer = some payload := by
      refine ⟨htruthy, ?_⟩
      rw [hpeer]
      intro hc
      simp only [Option.some.injEq] at hc
      exact hneq hc.symm
    simp [pool_packet_received, hcond, hfired]

theorem duplicate_handshake_behavior_witness :
    ("A" = "A" →
      (pool_packet_received 7 ⟨some "A", true, true⟩ [("A", [7])] HANDSHAKE "A").2.1
          = connection_made [("A", [7])] "A" 7 ∧
      (pool_packet_received 7 ⟨some "A", true, true⟩ [("A", [7])] HANDSHAKE "A").2.2
          = [PoolEvent.uncaughtAlreadyCalled]) ∧
    (¬ "A" = "A" →
      (pool_packet_received 7 ⟨some "A", true, true⟩ [("A", [7])] HANDSHAKE "A").2.1
          = [("A", [7])] ∧
      (pool_packet_received 7 ⟨some "A", true, true⟩ [("A", [7])] HANDSHAKE "A").2.2
          = [PoolEvent.loggedErr "peer mismatch", PoolEvent.loseConnection,
             PoolEvent.uncaughtAlreadyCalled]) :=
  duplicate_handshake_behavior ⟨some "A", true, true⟩ [("A", [7])] 7 "A" "A"
    (by decide) (by decide) (by decide)

example : create_function_stub "anycall://h:1/functions/000102030405060708090a0b0c0d0e0f"
    = Except.ok ⟨"h:1", 0x000102030405060708090a0b0c0d0e0f⟩ := by decide

example : create_function_stub "anycall://peer/functions/aaaaaaaa-bbbb-cccc-dddd-eeeeffff0000"
    = Except.ok ⟨"peer", 0xaaaaaaaabbbbccccddddeeeeffff0000⟩ := by decide

example : isError (create_function_stub "http://h:1/functions/000102030405060708090a0b0c0d0e0f")
    = true := by decide

example : isError (create_function_stub "anycall://h:1/functions/xyz") = true := by decide

example : isError (create_function_stub "anycall://h:1/fun/000102030405060708090a0b0c0d0e0f")
    = true := by decide

example : functionUrl "h:1" 255 = "anycall://h:1/functions/000000000000000000000000000000ff" := by
  decide

end Anycall
